import Mathlib

/-!
Shallow embedding of the item-identity resolution and version-reconciliation
pipeline of the published-status dashboard (sources:
`src/utils/dataProcessing.ts`, `src/utils/graphqlQueries.ts`,
`src/types/itemInformation.ts`).

Modelling conventions:

* JavaScript strings are modelled as Lean `String` (a list of characters);
  `String.prototype.toUpperCase` is modelled on the ASCII range (the only
  range exercised by identifiers), as the character map `toUpperChar`.
* JavaScript truthiness of a string is `s ≠ ""`; of an optional field it is
  `Option.isSome` combined with the value's own truthiness.  The helpers
  `jsOrStr` / `firstTruthy` model the `a || b` idiom on strings.
* `async` functions that may reject are modelled as functions into
  `Except String α`: `.error` is a rejected promise (a propagated
  exception), `.ok` a resolved one.  The network transport (SDK `mutate`,
  `fetch`) is passed in as an explicit `Except`-valued argument.
-/

/-- ASCII lower/upper case pairs, used to model `String.prototype.toUpperCase`
on the character range the pipeline manipulates. -/
def lowerUpper : List (Char × Char) :=
  [('a','A'),('b','B'),('c','C'),('d','D'),('e','E'),('f','F'),('g','G'),('h','H'),
   ('i','I'),('j','J'),('k','K'),('l','L'),('m','M'),('n','N'),('o','O'),('p','P'),
   ('q','Q'),('r','R'),('s','S'),('t','T'),('u','U'),('v','V'),('w','W'),('x','X'),
   ('y','Y'),('z','Z')]

/-- Model of `toUpperCase` on a single character (ASCII). -/
def toUpperChar (c : Char) : Char :=
  match lowerUpper.find? (fun p => p.1 == c) with
  | some p => p.2
  | none => c

/-- The characters kept by `guid.replace(/[{}-]/g, '')`. -/
def keepGuidChar (c : Char) : Bool :=
  !(c == '{' || c == '}' || c == '-')

/-- Model of `itemId.replace(/[{}-]/g, '').toUpperCase()` — `normalizeItemId` in
`dataProcessing.ts`. -/
def normalizeItemId (itemId : String) : String :=
  ⟨(itemId.data.filter keepGuidChar).map toUpperChar⟩

/-- Model of `guid.replace(/[{}-]/g, '').toUpperCase()` — `formatGuidWithoutHyphens`
in `dataProcessing.ts` (textually the same body as `normalizeItemId`). -/
def formatGuidWithoutHyphens (guid : String) : String :=
  ⟨(guid.data.filter keepGuidChar).map toUpperChar⟩

/-- JS `s.substring(a, b)` for `a ≤ b` (the only way the source calls it). -/
def jsSubstring (s : String) (a b : Nat) : String :=
  ⟨(s.data.drop a).take (b - a)⟩

/-- Source `formatGuidWithHyphens` in `dataProcessing.ts`: canonicalize, then insert
hyphens at offsets 8/12/16/20 when the cleaned form has exactly 32
characters, otherwise return the original input unchanged. -/
def formatGuidWithHyphens (guid : String) : String :=
  let clean := formatGuidWithoutHyphens guid
  if clean.length ≠ 32 then guid
  else jsSubstring clean 0 8 ++ "-" ++ jsSubstring clean 8 12 ++ "-" ++
       jsSubstring clean 12 16 ++ "-" ++ jsSubstring clean 16 20 ++ "-" ++
       jsSubstring clean 20 32

theorem toUpperChar_idem (c : Char) : toUpperChar (toUpperChar c) = toUpperChar c := by
  unfold toUpperChar
  cases h : lowerUpper.find? (fun p => p.1 == c) with
  | none => simp [h]
  | some p =>
    have hpc : p.1 = c := by
      have := List.find?_some h
      simpa using this
    have hmem := List.mem_of_find?_eq_some h
    subst hpc
    fin_cases hmem <;> decide

theorem keepGuidChar_toUpperChar (c : Char) (h : keepGuidChar c = true) :
    keepGuidChar (toUpperChar c) = true := by
  unfold toUpperChar
  cases hf : lowerUpper.find? (fun p => p.1 == c) with
  | none => exact h
  | some p =>
    have hpc : p.1 = c := by
      have := List.find?_some hf
      simpa using this
    have hmem := List.mem_of_find?_eq_some hf
    subst hpc
    fin_cases hmem <;> decide

/-- A character list already in canonical form: every character survives the
`[{}-]` strip and is fixed by upper-casing. -/
def CleanChars (l : List Char) : Prop :=
  ∀ c ∈ l, keepGuidChar c = true ∧ toUpperChar c = c

theorem cleanChars_canon (l : List Char) :
    CleanChars ((l.filter keepGuidChar).map toUpperChar) := by
  intro c hc
  rcases List.mem_map.mp hc with ⟨d, hd, rfl⟩
  have hkeep : keepGuidChar d = true := List.of_mem_filter hd
  exact ⟨keepGuidChar_toUpperChar d hkeep, toUpperChar_idem d⟩

theorem cleanChars_sublist {l m : List Char} (h : m.Sublist l) (hl : CleanChars l) :
    CleanChars m := fun c hc => hl c (h.mem hc)

theorem cleanChars_append {l m : List Char} (hl : CleanChars l) (hm : CleanChars m) :
    CleanChars (l ++ m) := by
  intro c hc
  rcases List.mem_append.mp hc with h | h
  · exact hl c h
  · exact hm c h

theorem filter_of_cleanChars {l : List Char} (h : CleanChars l) :
    l.filter keepGuidChar = l :=
  List.filter_eq_self.mpr (fun c hc => (h c hc).1)

theorem map_of_cleanChars {l : List Char} (h : CleanChars l) :
    l.map toUpperChar = l := by
  induction l with
  | nil => rfl
  | cons c cs ih =>
    have hc := h c (List.mem_cons_self c cs)
    have hcs : CleanChars cs := fun d hd => h d (List.mem_cons_of_mem c hd)
    simp [hc.2, ih hcs]

theorem canon_of_cleanChars {l : List Char} (h : CleanChars l) :
    formatGuidWithoutHyphens ⟨l⟩ = ⟨l⟩ := by
  unfold formatGuidWithoutHyphens
  show (⟨(l.filter keepGuidChar).map toUpperChar⟩ : String) = ⟨l⟩
  rw [filter_of_cleanChars h, map_of_cleanChars h]

theorem cleanChars_formatGuidWithoutHyphens (s : String) :
    CleanChars (formatGuidWithoutHyphens s).data :=
  cleanChars_canon s.data

theorem formatGuidWithoutHyphens_idem (s : String) :
    formatGuidWithoutHyphens (formatGuidWithoutHyphens s) = formatGuidWithoutHyphens s :=
  canon_of_cleanChars (cleanChars_formatGuidWithoutHyphens s)

/-- C9: Canonicalization round-trip: for every string `x`,
`toCanonical(toHyphenated(toCanonical(x))) == toCanonical(x)`, where
`toCanonical` is `formatGuidWithoutHyphens` and `toHyphenated` is
`formatGuidWithHyphens`. -/
theorem c9_guid_canonical_roundtrip (x : String) :
    formatGuidWithoutHyphens (formatGuidWithHyphens (formatGuidWithoutHyphens x)) =
      formatGuidWithoutHyphens x := by
  have hclean : CleanChars (formatGuidWithoutHyphens x).data :=
    cleanChars_formatGuidWithoutHyphens x
  set c := formatGuidWithoutHyphens x with hcdef
  have hcanon : formatGuidWithoutHyphens c = c := canon_of_cleanChars hclean
  rw [formatGuidWithHyphens]
  simp only [hcanon]
  by_cases hlen : c.length = 32
  · simp only [hlen, ne_eq, not_true_eq_false, if_false]
    have hseg : ∀ a b : Nat, CleanChars ((c.data.drop a).take b) := fun a b =>
      cleanChars_sublist ((List.take_sublist _ _).trans (List.drop_sublist _ _)) hclean
    have hdash : List.filter keepGuidChar ['-'] = [] := rfl
    show (⟨_⟩ : String) = c
    have hdata : (jsSubstring c 0 8 ++ "-" ++ jsSubstring c 8 12 ++ "-" ++
        jsSubstring c 12 16 ++ "-" ++ jsSubstring c 16 20 ++ "-" ++
        jsSubstring c 20 32).data
        = (c.data.drop 0).take 8 ++ ['-'] ++ (c.data.drop 8).take 4 ++ ['-'] ++
          (c.data.drop 12).take 4 ++ ['-'] ++ (c.data.drop 16).take 4 ++ ['-'] ++
          (c.data.drop 20).take 12 := rfl
    rw [hdata]
    simp only [List.filter_append, hdash, filter_of_cleanChars (hseg _ _), List.append_nil]
    rw [List.drop_zero]
    have hmap : CleanChars (c.data.take 8 ++ (c.data.drop 8).take 4 ++
        (c.data.drop 12).take 4 ++ (c.data.drop 16).take 4 ++ (c.data.drop 20).take 12) := by
      intro ch hch
      simp only [List.append_assoc, List.mem_append] at hch
      rcases hch with h|h|h|h|h
      · exact hclean ch ((List.take_sublist _ _).mem h)
      all_goals exact (hseg _ _) ch h
    rw [map_of_cleanChars hmap]
    have h32 : c.data.length = 32 := hlen
    have hexp : c.data.take 32 = c.data.take 8 ++ (c.data.drop 8).take 4 ++
        (c.data.drop 12).take 4 ++ (c.data.drop 16).take 4 ++ (c.data.drop 20).take 12 := by
      have t12 : c.data.take 12 = c.data.take 8 ++ (c.data.drop 8).take 4 :=
        List.take_add c.data 8 4
      have t16 : c.data.take 16 = c.data.take 12 ++ (c.data.drop 12).take 4 :=
        List.take_add c.data 12 4
      have t20 : c.data.take 20 = c.data.take 16 ++ (c.data.drop 16).take 4 :=
        List.take_add c.data 16 4
      have t32 : c.data.take 32 = c.data.take 20 ++ (c.data.drop 20).take 12 :=
        List.take_add c.data 20 12
      rw [t32, t20, t16, t12]
    have hrec : c.data.take 8 ++ (c.data.drop 8).take 4 ++ (c.data.drop 12).take 4 ++
        (c.data.drop 16).take 4 ++ (c.data.drop 20).take 12 = c.data := by
      rw [← hexp]
      exact List.take_of_length_le (by omega)
    rw [hrec]
  · simp only [hlen, ne_eq, not_false_eq_true, if_true, hcanon]

/-- JS `s.split('|')` on character lists (single-character separator). -/
def splitOnPipe : List Char → List (List Char)
  | [] => [[]]
  | c :: rest =>
    let r := splitOnPipe rest
    if c = '|' then [] :: r
    else
      match r with
      | [] => [[c]]
      | s :: ss => (c :: s) :: ss

/-- The whitespace characters trimmed by JS `String.prototype.trim` that can
occur here (ASCII model). -/
def isJsSpace (c : Char) : Bool :=
  c == ' ' || c == '\t' || c == '\n' || c == '\r'

/-- JS `s.trim()`. -/
def jsTrim (s : String) : String :=
  ⟨((s.data.dropWhile isJsSpace).reverse.dropWhile isJsSpace).reverse⟩

/-- JS `s.split('|')`. -/
def jsSplitPipe (s : String) : List String :=
  (splitOnPipe s.data).map fun l => ⟨l⟩

def startsWithChars : List Char → List Char → Bool
  | [], _ => true
  | _ :: _, [] => false
  | p :: ps, c :: cs => p == c && startsWithChars ps cs

/-- JS `s.startsWith(pre)`. -/
def jsStartsWith (s pre : String) : Bool :=
  startsWithChars pre.data s.data

/-- JS `s.substring(a)` (drop the first `a` characters). -/
def jsSubstringFrom (s : String) (a : Nat) : String :=
  ⟨s.data.drop a⟩

def isHexDigit (c : Char) : Bool :=
  ('0' ≤ c && c ≤ '9') || ('a' ≤ c && c ≤ 'f') || ('A' ≤ c && c ≤ 'F')

def allHex (l : List Char) : Bool :=
  l.all isHexDigit

/-- The 8-4-4-4-12 hyphenated hexadecimal body of a GUID (36 characters). -/
def isGuidBody (l : List Char) : Bool :=
  (l.length == 36) &&
  allHex (l.take 8) && ((l.drop 8).take 1 == ['-']) &&
  allHex ((l.drop 9).take 4) && ((l.drop 13).take 1 == ['-']) &&
  allHex ((l.drop 14).take 4) && ((l.drop 18).take 1 == ['-']) &&
  allHex ((l.drop 19).take 4) && ((l.drop 23).take 1 == ['-']) &&
  allHex ((l.drop 24).take 12)

/-- Source `isValidGuid` in `dataProcessing.ts`: the regex
`^[{]?hex8-hex4-hex4-hex4-hex12[}]?$` — an optional opening brace, the
hyphenated body, an optional closing brace (each brace independently
optional, as in the regex). -/
def isValidGuid (s : String) : Bool :=
  let l := s.data
  let l1 := if l.head? == some '{' then l.tail else l
  let l2 := if l1.getLast? == some '}' then l1.dropLast else l1
  isGuidBody l2

/-- Result of `parseDatasourceValue`: direct GUID references (canonicalized)
and local/content paths still to be resolved. -/
structure ParsedDatasource where
  directIds : List String
  localPaths : List String
deriving DecidableEq, Repr

/-- Source `parseDatasourceValue` in `dataProcessing.ts`: split the raw field value
on `|`, trim, drop empty segments; per segment: GUID-like → canonical id;
`local:/`-prefixed → remainder as local path; `/sitecore/`-prefixed → whole
segment as local path; `query:` or anything else → dropped. -/
def parseDatasourceValue (datasource : String) : ParsedDatasource :=
  if datasource = "" then ⟨[], []⟩
  else
    let datasources := ((jsSplitPipe datasource).map jsTrim).filter (fun ds => ds.length > 0)
    datasources.foldl (fun acc ds =>
      if isValidGuid ds then
        { acc with directIds := acc.directIds ++ [normalizeItemId ds] }
      else if jsStartsWith ds "local:/" then
        { acc with localPaths := acc.localPaths ++ [jsSubstringFrom ds 7] }
      else if jsStartsWith ds "/sitecore/" then
        { acc with localPaths := acc.localPaths ++ [ds] }
      else if jsStartsWith ds "query:" then
        acc
      else
        acc) ⟨[], []⟩

/-- C6 counterexample: on the spec's concrete datasource value the parser
yields the local path `"Data/Text 1"` (only the `local:/` marker is
stripped), not `"Text 1"` as the claim states. -/
theorem c6_counterexample_local_path :
    (parseDatasourceValue
        "{AAAAAAAA-BBBB-CCCC-DDDD-EEEEEEEEEEEE}|local:/Data/Text 1").localPaths
      ≠ ["Text 1"] := by decide

/-- C6 (amended): for the datasource field value
`"{AAAAAAAA-BBBB-CCCC-DDDD-EEEEEEEEEEEE}|local:/Data/Text 1"` the parser
returns directIds `["AAAAAAAABBBBCCCCDDDDEEEEEEEEEEEE"]` and localPaths
`["Data/Text 1"]` (the `local:/` marker is stripped; the `Data/` segment is
kept by the parser and only massaged later, by the Local Path Resolver). -/
theorem c6_parser_concrete_scenario :
    parseDatasourceValue "{AAAAAAAA-BBBB-CCCC-DDDD-EEEEEEEEEEEE}|local:/Data/Text 1"
      = ⟨["AAAAAAAABBBBCCCCDDDDEEEEEEEEEEEE"], ["Data/Text 1"]⟩ := by decide

/-- JS `a || b` on a possibly-absent string `a` (empty string is falsy). -/
def jsOrStr (a : Option String) (b : String) : String :=
  match a with
  | some s => if s = "" then b else s
  | none => b

/-- First truthy value of a JS `a || b || ...` chain of possibly-absent
strings; `none` when every link is absent or empty. -/
def firstTruthy : List (Option String) → Option String
  | [] => none
  | a :: rest =>
    match a with
    | some s => if s = "" then firstTruthy rest else some s
    | none => firstTruthy rest

/-- Model of `if (!arr.includes(x)) arr.push(x)` — append-if-absent. -/
def pushUnique (ids : List String) (s : String) : List String :=
  if ids.contains s then ids else ids ++ [s]

/-- One rendering of the presentation-details document: the datasource field
under either of its two field-name variants. -/
structure Rendering where
  dataSource : Option String
  datasource : Option String
deriving DecidableEq, Repr

structure Placeholder where
  renderings : Option (List Rendering)
deriving DecidableEq, Repr

structure Device where
  renderings : Option (List Rendering)
  placeholders : Option (List Placeholder)
deriving DecidableEq, Repr

structure PresentationDetails where
  devices : Option (List Device)
deriving DecidableEq, Repr

/-- A `presentationDetails` payload as received: either it parses to the
expected shape (a string payload that `JSON.parse` accepts, or an
already-parsed object), or it is malformed, in which case the walker's
`try/catch` swallows the parse error and contributes nothing. -/
inductive PresentationPayload
  | parsed (details : PresentationDetails)
  | malformed
deriving DecidableEq, Repr

/-- Model of `rendering.dataSource || rendering.datasource`. -/
def renderingDatasourceValue (r : Rendering) : Option String :=
  firstTruthy [r.dataSource, r.datasource]

/-- Process one rendering: parse its datasource value (when truthy) and merge
the parsed ids/paths into the accumulated deduplicated lists. -/
def collectRendering (acc : List String × List String) (r : Rendering) :
    List String × List String :=
  match renderingDatasourceValue r with
  | none => acc
  | some v =>
    let parsed := parseDatasourceValue v
    (parsed.directIds.foldl pushUnique acc.1, parsed.localPaths.foldl pushUnique acc.2)

/-- Process one device: its own renderings, then the renderings of each of
its placeholders (one level of nesting, as in the source). -/
def collectDevice (acc : List String × List String) (device : Device) :
    List String × List String :=
  let acc1 :=
    match device.renderings with
    | some rs => rs.foldl collectRendering acc
    | none => acc
  match device.placeholders with
  | some phs =>
    phs.foldl (fun a ph =>
      match ph.renderings with
      | some rs => rs.foldl collectRendering a
      | none => a) acc1
  | none => acc1

/-- Source `extractDatasourcesFromPresentationDetails` in `dataProcessing.ts`:
walk devices → renderings and devices → placeholders → renderings,
returning deduplicated (directIds, localPaths). Absent or malformed payload
contributes nothing. -/
def extractDatasourcesFromPresentationDetails :
    Option PresentationPayload → List String × List String
  | none => ([], [])
  | some .malformed => ([], [])
  | some (.parsed details) =>
    match details.devices with
    | none => ([], [])
    | some devices => devices.foldl collectDevice ([], [])

structure PageInfo where
  path : Option String
  itemId : Option String
  id : Option String
  pageId : Option String
  presentationDetails : Option PresentationPayload
deriving DecidableEq, Repr

structure SiteInfo where
  itemId : Option String
  id : Option String
deriving DecidableEq, Repr

/-- The page-context document, restricted to the fields the walker reads.
The walker treats the document defensively; a non-object context is the
`none` case of the `Option PageContext` argument below. -/
structure PageContext where
  pageInfo : Option PageInfo
  siteInfo : Option SiteInfo
  itemId : Option String
  id : Option String
  pageId : Option String
deriving DecidableEq, Repr

structure ExtractedItemInfo where
  itemIds : List String
  localPathsToResolve : List String
  currentPagePath : String
deriving DecidableEq, Repr

/-- The fallback chain for the current item id: pageInfo-derived value,
else siteInfo (`itemId`/`id`), else the context's top level
(`itemId`/`id`/`pageId`). -/
def extractFallbackId (context : PageContext) (fromPageInfo : Option String) :
    Option String :=
  let c1 :=
    match fromPageInfo with
    | some s => some s
    | none =>
      match context.siteInfo with
      | some si => firstTruthy [si.itemId, si.id]
      | none => none
  match c1 with
  | some s => some s
  | none => firstTruthy [context.itemId, context.id, context.pageId]

/-- The tail of `extractItemIdsWithLocalPaths` (lines 259-287): resolve the
current item id through the fallback chain; if found, prepend its canonical
form when not already collected; otherwise return the empty result. -/
def finishExtraction (context : PageContext) (fromPageInfo : Option String)
    (itemIds : List String) (currentPagePath : String) : ExtractedItemInfo :=
  match extractFallbackId context fromPageInfo with
  | some cid =>
    let clean := normalizeItemId cid
    ⟨if itemIds.contains clean then itemIds else clean :: itemIds, [], currentPagePath⟩
  | none => ⟨[], [], ""⟩

/-- Model of the early-return branch's anchor insertion
— the early-return branch's anchor insertion (lines 242-248). -/
def unshiftCurrent (currentItemId : Option String) (itemIds : List String) :
    List String :=
  match currentItemId with
  | some cid =>
    let clean := normalizeItemId cid
    if itemIds.contains clean then itemIds else clean :: itemIds
  | none => itemIds

/-- Source `extractItemIdsWithLocalPaths` in `dataProcessing.ts`.  A context that is
absent or not an object is the `none` case.  When presentation details yield
local paths the function returns early with the collected ids and paths;
otherwise it falls through to the current-item fallback chain. -/
def extractItemIdsWithLocalPaths : Option PageContext → ExtractedItemInfo
  | none => ⟨[], [], ""⟩
  | some context =>
    match context.pageInfo with
    | some pageInfo =>
      let currentPagePath := jsOrStr pageInfo.path ""
      let currentItemId := firstTruthy [pageInfo.itemId, pageInfo.id, pageInfo.pageId]
      match pageInfo.presentationDetails with
      | some pres =>
        let collected := extractDatasourcesFromPresentationDetails (some pres)
        let itemIds := collected.1.foldl pushUnique []
        if collected.2.length > 0 then
          ⟨unshiftCurrent currentItemId itemIds, collected.2, currentPagePath⟩
        else
          finishExtraction context currentItemId itemIds currentPagePath
      | none => finishExtraction context currentItemId [] currentPagePath
    | none => finishExtraction context none [] ""

/-- Source `extractItemIds` in `dataProcessing.ts` (enhanced version's wrapper). -/
def extractItemIds (pageContext : Option PageContext) : List String :=
  (extractItemIdsWithLocalPaths pageContext).itemIds

/-- No current item identifier is determinable from the context: the
identifier fields of pageInfo, of siteInfo and of the top level are all
absent (or empty, hence falsy). -/
def noAnchorFields (context : PageContext) : Bool :=
  (match context.pageInfo with
   | some pi => firstTruthy [pi.itemId, pi.id, pi.pageId] == none
   | none => true) &&
  (match context.siteInfo with
   | some si => firstTruthy [si.itemId, si.id] == none
   | none => true) &&
  (firstTruthy [context.itemId, context.id, context.pageId] == none)

/-- Page context for the C4 counterexample: no identifier anywhere, but a
presentation rendering carrying a symbolic local path. -/
def c4ctx : PageContext :=
  { pageInfo := some
      { path := none, itemId := none, id := none, pageId := none,
        presentationDetails := some (.parsed
          ⟨some [{ renderings := some [{ dataSource := some "local:/Data/X",
                                         datasource := none }],
                   placeholders := none }]⟩) },
    siteInfo := none, itemId := none, id := none, pageId := none }

/-- C4 counterexample: on a context with no determinable current item
identifier but a collected symbolic local path, the walker does NOT return
the empty result (the early-return branch bypasses the missing-anchor
check). -/
theorem c4_counterexample_not_empty :
    noAnchorFields c4ctx = true ∧
      extractItemIdsWithLocalPaths (some c4ctx) ≠ ⟨[], [], ""⟩ := by decide

theorem extractFallbackId_eq_none (context : PageContext)
    (h : noAnchorFields context = true) :
    extractFallbackId context
        (match context.pageInfo with
         | some pi => firstTruthy [pi.itemId, pi.id, pi.pageId]
         | none => none) = none := by
  obtain ⟨pio, sio, ti, tid, tp⟩ := context
  simp only [noAnchorFields, Bool.and_eq_true, beq_iff_eq] at h
  obtain ⟨⟨h1, h2⟩, h3⟩ := h
  cases pio with
  | none =>
    cases sio with
    | none => simp [extractFallbackId, h3]
    | some si =>
      have h2' : firstTruthy [si.itemId, si.id] = none := by simpa using h2
      simp [extractFallbackId, h2', h3]
  | some pi =>
    have h1' : firstTruthy [pi.itemId, pi.id, pi.pageId] = none := by simpa using h1
    cases sio with
    | none => simp [extractFallbackId, h1', h3]
    | some si =>
      have h2' : firstTruthy [si.itemId, si.id] = none := by simpa using h2
      simp [extractFallbackId, h1', h2', h3]

/-- C4 (amended): when no current item identifier is determinable, the
walker returns the empty result provided the presentation details yielded no
symbolic local paths; when local paths were collected, it instead returns
early with the collected direct ids and local paths — the missing-anchor
override does not apply on that branch. -/
theorem c4_missing_anchor_override (context : PageContext)
    (h : noAnchorFields context = true) :
    extractItemIdsWithLocalPaths (some context) =
      match context.pageInfo with
      | none => ⟨[], [], ""⟩
      | some pi =>
        let collected := extractDatasourcesFromPresentationDetails pi.presentationDetails
        if collected.2.length > 0 then
          ⟨collected.1.foldl pushUnique [], collected.2, jsOrStr pi.path ""⟩
        else ⟨[], [], ""⟩ := by
  have hfb := extractFallbackId_eq_none context h
  obtain ⟨pio, sio, ti, tid, tp⟩ := context
  simp only [noAnchorFields, Bool.and_eq_true, beq_iff_eq] at h
  obtain ⟨⟨h1, h2⟩, h3⟩ := h
  cases pio with
  | none =>
    simp only at hfb
    simp [extractItemIdsWithLocalPaths, finishExtraction, hfb]
  | some pi =>
    have h1' : firstTruthy [pi.itemId, pi.id, pi.pageId] = none := by simpa using h1
    simp only at hfb
    rw [h1'] at hfb
    cases hpd : pi.presentationDetails with
    | none =>
      simp [extractItemIdsWithLocalPaths, hpd, h1', finishExtraction, hfb,
        extractDatasourcesFromPresentationDetails]
    | some pres =>
      simp only [extractItemIdsWithLocalPaths, hpd, h1']
      by_cases hlen :
          (extractDatasourcesFromPresentationDetails (some pres)).2.length > 0
      · simp [hlen, unshiftCurrent]
      · simp [hlen, finishExtraction, hfb]

/-- Witness for C4 at the counterexample context: the hypothesis holds and
the amended right-hand side evaluates to the early-returned collected
paths. -/
theorem c4_missing_anchor_override_witness :
    noAnchorFields c4ctx = true ∧
      extractItemIdsWithLocalPaths (some c4ctx) = ⟨[], ["Data/X"], ""⟩ :=
  ⟨by decide, by rw [c4_missing_anchor_override c4ctx (by decide)]; decide⟩

theorem nodup_foldl_pushUnique (l : List String) (acc : List String) (h : acc.Nodup) :
    (l.foldl pushUnique acc).Nodup := by
  induction l generalizing acc with
  | nil => exact h
  | cons x xs ih =>
    apply ih
    unfold pushUnique
    by_cases hx : acc.contains x = true
    · rw [if_pos hx]
      exact h
    · have hmem : x ∉ acc := fun hm => hx (List.elem_iff.mpr hm)
      rw [if_neg hx]
      exact List.Nodup.append h (List.nodup_singleton x) (by simpa using hmem)

theorem nodup_unshift (clean : String) (L : List String) (hL : L.Nodup) :
    (if L.contains clean then L else clean :: L).Nodup := by
  by_cases hc : L.contains clean = true
  · rw [if_pos hc]
    exact hL
  · have hmem : clean ∉ L := fun hm => hc (List.elem_iff.mpr hm)
    rw [if_neg hc]
    exact List.nodup_cons.mpr ⟨hmem, hL⟩

/-- Page info for the C5 counterexample: the current item's id is also
collected (second) among the datasource references of a rendering. -/
def c5pageInfo : PageInfo :=
  { path := none,
    itemId := some "{AAAAAAAA-AAAA-AAAA-AAAA-AAAAAAAAAAAA}",
    id := none, pageId := none,
    presentationDetails := some (.parsed
      ⟨some [{ renderings := some
                [{ dataSource := some
                    "{BBBBBBBB-BBBB-BBBB-BBBB-BBBBBBBBBBBB}|{AAAAAAAA-AAAA-AAAA-AAAA-AAAAAAAAAAAA}",
                   datasource := none }],
               placeholders := none }]⟩) }

def c5ctx : PageContext :=
  { pageInfo := some c5pageInfo,
    siteInfo := none, itemId := none, id := none, pageId := none }

/-- The pageInfo-derived current item id: the id chain read from pageInfo's
own fields (`itemId`/`id`/`pageId`), `none` when pageInfo is absent.  This is
the `currentItemId` value live at the walker's presentation-details step. -/
def pageInfoAnchor (context : PageContext) : Option String :=
  match context.pageInfo with
  | some pi => firstTruthy [pi.itemId, pi.id, pi.pageId]
  | none => none

/-- The deduplicated direct datasource ids collected from the context's
presentation details (empty when pageInfo is absent). -/
def collectedDirectIds (context : PageContext) : List String :=
  match context.pageInfo with
  | some pi =>
    (extractDatasourcesFromPresentationDetails pi.presentationDetails).1.foldl
      pushUnique []
  | none => []

/-- The symbolic local paths collected from the context's presentation
details (empty when pageInfo is absent). -/
def collectedLocalPaths (context : PageContext) : List String :=
  match context.pageInfo with
  | some pi => (extractDatasourcesFromPresentationDetails pi.presentationDetails).2
  | none => []

/-- Page context for the second C5 counterexample input: the current item id
is determinable only from siteInfo, and the presentation details carry a
symbolic local path, so the early return fires before the siteInfo fallback
runs. -/
def c5bctx : PageContext :=
  { pageInfo := some
      { path := none, itemId := none, id := none, pageId := none,
        presentationDetails := some (.parsed
          ⟨some [{ renderings := some [{ dataSource := some "local:/Data/X",
                                         datasource := none }],
                   placeholders := none }]⟩) },
    siteInfo := some { itemId := some "{CCCCCCCC-CCCC-CCCC-CCCC-CCCCCCCCCCCC}",
                       id := none },
    itemId := none, id := none, pageId := none }

/-- C5 counterexample, refuting the claim at two concrete inputs.  First: the
current item id is determinable (pageInfo.itemId) and was already collected
as a datasource reference at position 1, yet the returned list keeps it
there — the first element is the other datasource id, not the current item's
canonical identifier.  Second: the current item id is determinable (from
siteInfo) and a local path was collected, yet the returned itemIds list is
empty — the anchor is not inserted at all, let alone first. -/
theorem c5_counterexample_not_moved_to_front :
    ((extractFallbackId c5ctx (pageInfoAnchor c5ctx) =
        some "{AAAAAAAA-AAAA-AAAA-AAAA-AAAAAAAAAAAA}") ∧
      (extractItemIdsWithLocalPaths (some c5ctx)).itemIds =
        ["BBBBBBBBBBBBBBBBBBBBBBBBBBBBBBBB", "AAAAAAAAAAAAAAAAAAAAAAAAAAAAAAAA"] ∧
      (extractItemIdsWithLocalPaths (some c5ctx)).itemIds.head? ≠
        some (normalizeItemId "{AAAAAAAA-AAAA-AAAA-AAAA-AAAAAAAAAAAA}")) ∧
    ((extractFallbackId c5bctx (pageInfoAnchor c5bctx) =
        some "{CCCCCCCC-CCCC-CCCC-CCCC-CCCCCCCCCCCC}") ∧
      (extractItemIdsWithLocalPaths (some c5bctx)).itemIds = []) := by decide

/-- C5 (amended): for every page context from which a current item identifier
`cid` is determinable through the source's full fallback chain (pageInfo's
id fields, else siteInfo, else the top level), the returned itemIds list is
the deduplicated collected datasource list with `cid`'s canonical form
CONSED AT THE FRONT when it was not yet collected and LEFT IN PLACE (list
unchanged, not moved to front) when it was already collected — EXCEPT when
symbolic local paths were collected while pageInfo's own id fields are all
absent: the early return then skips the siteInfo/top-level fallbacks and no
anchor is inserted at all.  The list is deduplicated in every case. -/
theorem c5_current_item_first (context : PageContext) (cid : String)
    (hdet : extractFallbackId context (pageInfoAnchor context) = some cid) :
    ((extractItemIdsWithLocalPaths (some context)).itemIds =
      if (collectedLocalPaths context).length > 0 ∧ pageInfoAnchor context = none then
        collectedDirectIds context
      else if (collectedDirectIds context).contains (normalizeItemId cid) then
        collectedDirectIds context
      else normalizeItemId cid :: collectedDirectIds context) ∧
    (extractItemIdsWithLocalPaths (some context)).itemIds.Nodup := by
  have hcol : (collectedDirectIds context).Nodup := by
    cases hcp : context.pageInfo with
    | none => simp [collectedDirectIds, hcp]
    | some pi =>
      simp only [collectedDirectIds, hcp]
      exact nodup_foldl_pushUnique _ [] List.nodup_nil
  have heq : (extractItemIdsWithLocalPaths (some context)).itemIds =
      (if (collectedLocalPaths context).length > 0 ∧ pageInfoAnchor context = none then
        collectedDirectIds context
      else if (collectedDirectIds context).contains (normalizeItemId cid) then
        collectedDirectIds context
      else normalizeItemId cid :: collectedDirectIds context) := by
    obtain ⟨pio, sio, ti, tid, tp⟩ := context
    cases pio with
    | none =>
      simp only [pageInfoAnchor] at hdet
      simp only [pageInfoAnchor, collectedDirectIds, collectedLocalPaths]
      simp [extractItemIdsWithLocalPaths, finishExtraction, hdet]
    | some pi =>
      simp only [pageInfoAnchor] at hdet
      simp only [pageInfoAnchor, collectedDirectIds, collectedLocalPaths]
      cases hpd : pi.presentationDetails with
      | none =>
        simp [extractItemIdsWithLocalPaths, hpd, finishExtraction, hdet,
          extractDatasourcesFromPresentationDetails]
      | some pres =>
        simp only [extractItemIdsWithLocalPaths, hpd]
        by_cases hlen :
            (extractDatasourcesFromPresentationDetails (some pres)).2.length > 0
        · cases hfpi : firstTruthy [pi.itemId, pi.id, pi.pageId] with
          | some c0 =>
            rw [hfpi] at hdet
            have hc0 : c0 = cid := by
              simpa [extractFallbackId] using hdet
            subst hc0
            simp [hlen, hfpi, unshiftCurrent]
          | none =>
            simp [hlen, hfpi, unshiftCurrent]
        · simp [hlen, finishExtraction, hdet]
  refine ⟨heq, ?_⟩
  rw [heq]
  by_cases hc : (collectedLocalPaths context).length > 0 ∧ pageInfoAnchor context = none
  · rw [if_pos hc]
    exact hcol
  · rw [if_neg hc]
    exact nodup_unshift _ _ hcol

/-- Witness for C5 at two concrete contexts: the anchored collected-list case
(current id already collected, left in place) and the siteInfo-anchored
early-return case (no anchor inserted). -/
theorem c5_current_item_first_witness :
    ((extractItemIdsWithLocalPaths (some c5ctx)).itemIds =
        ["BBBBBBBBBBBBBBBBBBBBBBBBBBBBBBBB", "AAAAAAAAAAAAAAAAAAAAAAAAAAAAAAAA"] ∧
      (extractItemIdsWithLocalPaths (some c5ctx)).itemIds.Nodup) ∧
    ((extractItemIdsWithLocalPaths (some c5bctx)).itemIds = [] ∧
      (extractItemIdsWithLocalPaths (some c5bctx)).itemIds.Nodup) := by
  have h1 := c5_current_item_first c5ctx
    "{AAAAAAAA-AAAA-AAAA-AAAA-AAAAAAAAAAAA}" (by decide)
  have h2 := c5_current_item_first c5bctx
    "{CCCCCCCC-CCCC-CCCC-CCCC-CCCCCCCCCCCC}" (by decide)
  exact ⟨⟨h1.1.trans (by decide), h1.2⟩, ⟨h2.1.trans (by decide), h2.2⟩⟩

/-- JS `a?.version || b` on a possibly-absent number (0 is falsy). -/
def jsOrNat (a : Option Nat) (b : Nat) : Nat :=
  match a with
  | some n => if n = 0 then b else n
  | none => b

/-- Authoring projection of an item (`AuthoringItemResponse` in
`types/itemInformation.ts`); `template`/`language` stand for the nested
`template?.name` / `language?.name`, and the `fields` list (used only by
reference-extraction, not by the reconciler) is omitted. -/
structure AuthoringItemResponse where
  itemId : String
  name : String
  path : String
  version : Nat
  template : Option String
  language : Option String
deriving DecidableEq, Repr

/-- Live projection of an item (`LiveItemResponse`). -/
structure LiveItemResponse where
  id : String
  name : String
  version : Nat
  language : Option String
deriving DecidableEq, Repr

/-- The nested `{data?, errors?}` part of a query result; the alias-keyed
payload map is an association list, and `errors` carries the messages. -/
structure ResponseData (α : Type) where
  data : Option (List (String × α))
  errors : Option (List String)
deriving DecidableEq, Repr

/-- Source `ItemQueryResult` in `types/itemInformation.ts`:
`{data?: {data?, errors?}, error?}`. -/
structure ItemQueryResult (α : Type) where
  data : Option (ResponseData α)
  error : Option String
deriving DecidableEq, Repr

structure ValidationResult (α : Type) where
  isValid : Bool
  errors : List String
  data : Option (List (String × α))
deriving Repr

/-- Source `validateResponse` in `dataProcessing.ts`: an `error` field or missing
`data.data` invalidates the response with no data extracted; a populated
`errors` array is collected as diagnostics but the data is still returned. -/
def validateResponse {α : Type} (response : ItemQueryResult α) : ValidationResult α :=
  match response.error with
  | some e => ⟨false, ["Response error: " ++ e], none⟩
  | none =>
    match response.data with
    | none => ⟨false, ["No data in response"], none⟩
    | some rd =>
      match rd.data with
      | none => ⟨false, ["No data in response"], none⟩
      | some d =>
        let errs :=
          match rd.errors with
          | some es =>
            if es.length > 0 then es.map (fun e => "GraphQL error: " ++ e) else []
          | none => []
        ⟨errs.isEmpty, errs, some d⟩

inductive ItemType
  | current
  | datasource
  | link
  | reference
deriving DecidableEq, Repr

/-- Source `determineItemType` in `dataProcessing.ts`: `current` when the id equals
the (present) current item id, else the placeholder `reference`. -/
def determineItemType (itemId : String) (currentItemId : Option String) : ItemType :=
  match currentItemId with
  | some cid => if itemId = cid then .current else .reference
  | none => .reference

/-- Source `ProcessedItemInfo` in `types/itemInformation.ts`.  `versionDifference`
is an `Int` because JS subtraction can go negative. -/
structure ProcessedItemInfo where
  id : String
  name : String
  path : String
  latestVersion : Nat
  publishedVersion : Option Nat
  isPublished : Bool
  isOutdated : Bool
  versionDifference : Int
  itemType : ItemType
  template : Option String
  language : String
deriving DecidableEq, Repr

/-- The ordinal alias `item{i}` joining the identifier list to both result
envelopes. -/
def itemAlias (index : Nat) : String :=
  "item" ++ toString index

/-- The body of `processItemData`'s `forEach`: build one `ProcessedItemInfo`
from the ordinal lookups into the two validated data maps. -/
def mkProcessedItem (authData : Option (List (String × AuthoringItemResponse)))
    (liveData : Option (List (String × LiveItemResponse)))
    (currentItemId : Option String) (index : Nat) (itemId : String) :
    ProcessedItemInfo :=
  let authoringItem := authData.bind (List.lookup (itemAlias index))
  let liveItem := liveData.bind (List.lookup (itemAlias index))
  let latestVersion := jsOrNat (authoringItem.map (fun a => a.version)) 0
  let publishedVersion : Option Nat :=
    match liveItem with
    | some l => if l.version = 0 then none else some l.version
    | none => none
  let isPublished := publishedVersion.isSome
  let isOutdated := isPublished && decide (publishedVersion.getD 0 < latestVersion)
  { id := itemId,
    name := jsOrStr (authoringItem.map (fun a => a.name))
      (jsOrStr (liveItem.map (fun l => l.name)) "Unknown Item"),
    path := jsOrStr (authoringItem.map (fun a => a.path)) "",
    latestVersion := latestVersion,
    publishedVersion := publishedVersion,
    isPublished := isPublished,
    isOutdated := isOutdated,
    versionDifference :=
      if isPublished then (latestVersion : Int) - (publishedVersion.getD 0 : Int)
      else (latestVersion : Int),
    itemType := determineItemType itemId currentItemId,
    template := authoringItem.bind (fun a => a.template),
    language := jsOrStr (authoringItem.bind (fun a => a.language))
      (jsOrStr (liveItem.bind (fun l => l.language)) "en") }

/-- Model of `itemIds.forEach((itemId, index) => ...)` as indexed recursion. -/
def processItemsFrom (authData : Option (List (String × AuthoringItemResponse)))
    (liveData : Option (List (String × LiveItemResponse)))
    (currentItemId : Option String) :
    Nat → List String → List ProcessedItemInfo
  | _, [] => []
  | index, itemId :: rest =>
    mkProcessedItem authData liveData currentItemId index itemId ::
      processItemsFrom authData liveData currentItemId (index + 1) rest

/-- Source `processItemData` in `dataProcessing.ts`: validate both envelopes, then
merge per ordinal. -/
def processItemData (authoringResult : ItemQueryResult AuthoringItemResponse)
    (liveResult : ItemQueryResult LiveItemResponse)
    (itemIds : List String) (currentItemId : Option String) :
    List ProcessedItemInfo :=
  processItemsFrom (validateResponse authoringResult).data
    (validateResponse liveResult).data currentItemId 0 itemIds

structure ItemInformationSummary where
  totalItems : Nat
  publishedItems : Nat
  unpublishedItems : Nat
  outdatedItems : Nat
deriving DecidableEq, Repr

/-- Source `generateSummary` in `dataProcessing.ts`. -/
def generateSummary (items : List ProcessedItemInfo) : ItemInformationSummary :=
  { totalItems := items.length,
    publishedItems := (items.filter (fun item => item.isPublished)).length,
    unpublishedItems := (items.filter (fun item => !item.isPublished)).length,
    outdatedItems := (items.filter (fun item => item.isOutdated)).length }

/-- JS truthiness of the optional context token. -/
def truthyToken : Option String → Bool
  | some s => !(s == "")
  | none => false

/-- The `{data: {data: {}}}` envelope returned on the empty-input guard. -/
def emptyEnvelope {α : Type} : ItemQueryResult α :=
  ⟨some ⟨some [], none⟩, none⟩

/-- Source `getItemsFromAuthoring` in `graphqlQueries.ts`.  The SDK `mutate` call is
the `transport` argument (`.error` = the awaited promise rejected).  The
`throw` on a falsy `sitecoreContextId` sits OUTSIDE the `try`, so it
propagates (the function's promise rejects). -/
def getItemsFromAuthoring (clientPresent : Bool) (itemIds : List String)
    (sitecoreContextId : Option String)
    (transport : Except String (ItemQueryResult AuthoringItemResponse)) :
    Except String (ItemQueryResult AuthoringItemResponse) :=
  if !clientPresent || itemIds.length == 0 then .ok emptyEnvelope
  else if !truthyToken sitecoreContextId then
    .error "sitecoreContextId is required for authoring GraphQL queries"
  else
    match transport with
    | .ok result => .ok result
    | .error e => .ok ⟨none, some e⟩

/-- Source `getItemsFromLive` in `graphqlQueries.ts`: a direct `fetch` against the
Edge endpoint; the whole fetch/HTTP-status-check/JSON-parse sequence is the
`transport` argument, and its parsed JSON is wrapped as `{data: result}`.
Client and context token are accepted but unused. -/
def getItemsFromLive (_clientPresent : Bool) (itemIds : List String)
    (_sitecoreContextId : Option String)
    (transport : Except String (ResponseData LiveItemResponse)) :
    Except String (ItemQueryResult LiveItemResponse) :=
  if itemIds.length == 0 then .ok emptyEnvelope
  else
    match transport with
    | .ok result => .ok ⟨some result, none⟩
    | .error e => .ok ⟨none, some e⟩

/-- Payload returned per `path{i}` slot by the resolution query. -/
structure ResolvedPathItem where
  itemId : Option String
  name : Option String
deriving DecidableEq, Repr

/-- Model of `item.itemId.replace(/[{}]/g, '').toUpperCase()` — braces stripped,
hyphens NOT touched. -/
def stripBracesUpper (s : String) : String :=
  ⟨(s.data.filter (fun c => !(c == '{' || c == '}'))).map toUpperChar⟩

/-- JS object property assignment `rec[k] = v` on an association list
(overwrite if the key exists, append otherwise). -/
def jsRecordSet (rec : List (String × Option String)) (k : String)
    (v : Option String) : List (String × Option String) :=
  if rec.any (fun p => p.1 == k) then
    rec.map (fun p => if p.1 == k then (k, v) else p)
  else rec ++ [(k, v)]

/-- The value assigned for one ordinal slot of the resolution response:
`if (item && item.itemId) result[p] = strip-braces-uppercase else null`. -/
def resolveSlotValue (d : List (String × Option ResolvedPathItem)) (index : Nat) :
    Option String :=
  match d.lookup ("path" ++ toString index) with
  | some (some item) =>
    match item.itemId with
    | some iid => if iid = "" then none else some (stripBracesUpper iid)
    | none => none
  | _ => none

/-- Source `resolveLocalDatasourcePaths` in `graphqlQueries.ts`.  The query-string
construction (base path + `Data/<name>`) has no bearing on the returned
mapping and is not modelled; the `transport` argument is the awaited
`client.mutate` call. -/
def resolveLocalDatasourcePaths (clientPresent : Bool) (localPaths : List String)
    (_basePath : String) (_sitecoreContextId : String)
    (transport : Except String (ItemQueryResult (Option ResolvedPathItem))) :
    List (String × Option String) :=
  if !clientPresent || localPaths.length == 0 then []
  else
    match transport with
    | .error _ => localPaths.foldl (fun acc p => jsRecordSet acc p none) []
    | .ok response =>
      match response.data.bind (fun rd => rd.data) with
      | none => []
      | some d =>
        localPaths.enum.foldl
          (fun acc pair => jsRecordSet acc pair.2 (resolveSlotValue d pair.1)) []

theorem jsOrNat_some_zero (n : Nat) : jsOrNat (some n) 0 = n := by
  by_cases h : n = 0 <;> simp [jsOrNat, h]

/-- C1: Ordinal alignment of the reconciler: for ids `[A, B, C]`, authoring
data only at alias `item1` and live data only at aliases `item0`/`item2`,
`processItemData` yields three records in list order; the B record (index 1)
takes `latestVersion` from the authoring `item1` payload and has
`publishedVersion` null; the authoring payload is attached to no other
ordinal (records 0 and 2 have `latestVersion` 0). -/
theorem c1_ordinal_alignment (A B C : String) (a1 : AuthoringItemResponse)
    (l0 l2 : LiveItemResponse) (cur : Option String) :
    ((processItemData ⟨some ⟨some [("item1", a1)], none⟩, none⟩
        ⟨some ⟨some [("item0", l0), ("item2", l2)], none⟩, none⟩ [A, B, C] cur).map
          (fun r => (r.id, r.latestVersion))
        = [(A, 0), (B, a1.version), (C, 0)]) ∧
    (((processItemData ⟨some ⟨some [("item1", a1)], none⟩, none⟩
        ⟨some ⟨some [("item0", l0), ("item2", l2)], none⟩, none⟩ [A, B, C] cur)[1]?).map
          (fun r => r.publishedVersion) = some none) := by
  constructor
  · have hred : (processItemData ⟨some ⟨some [("item1", a1)], none⟩, none⟩
        ⟨some ⟨some [("item0", l0), ("item2", l2)], none⟩, none⟩ [A, B, C] cur).map
          (fun r => (r.id, r.latestVersion))
        = [(A, 0), (B, jsOrNat (some a1.version) 0), (C, 0)] := rfl
    rw [hred, jsOrNat_some_zero]
  · rfl

theorem processItemsFrom_getElem
    (authData : Option (List (String × AuthoringItemResponse)))
    (liveData : Option (List (String × LiveItemResponse)))
    (cur : Option String) :
    ∀ (ids : List String) (start i : Nat) (h : i < ids.length),
      (processItemsFrom authData liveData cur start ids)[i]? =
        some (mkProcessedItem authData liveData cur (start + i) (ids.get ⟨i, h⟩)) := by
  intro ids
  induction ids with
  | nil => intro start i h; simp at h
  | cons x xs ih =>
    intro start i h
    cases i with
    | zero => simp [processItemsFrom]
    | succ j =>
      have hj : j < xs.length := by simpa using h
      simp only [processItemsFrom, List.getElem?_cons_succ]
      rw [ih (start + 1) j hj]
      have harith : start + 1 + j = start + (j + 1) := by omega
      rw [harith]
      rfl

theorem processItemsFrom_length
    (authData : Option (List (String × AuthoringItemResponse)))
    (liveData : Option (List (String × LiveItemResponse)))
    (cur : Option String) :
    ∀ (start : Nat) (ids : List String),
      (processItemsFrom authData liveData cur start ids).length = ids.length := by
  intro start ids
  induction ids generalizing start with
  | nil => rfl
  | cons x xs ih => simp [processItemsFrom, ih]

/-- C2 counterexample: a live payload that is PRESENT at `item0` but carries
version 0 yields `publishedVersion` null (JS `|| null` coalesces the falsy
0), contradicting "null only when the live payload is absent". -/
theorem c2_counterexample_zero_version :
    ((validateResponse (⟨some ⟨some [("item0", ⟨"LID", "N", 0, none⟩)], none⟩, none⟩ :
        ItemQueryResult LiveItemResponse)).data.bind
          (List.lookup (itemAlias 0))).isSome = true ∧
    (processItemData ⟨some ⟨some [], none⟩, none⟩
        ⟨some ⟨some [("item0", ⟨"LID", "N", 0, none⟩)], none⟩, none⟩ ["A"] none).map
          (fun r => r.publishedVersion) = [none] := by decide

/-- C2 (amended): each record produced by `processItemData` satisfies the
claimed field formulas, with publishedVersion amended to: the live payload's
version when the payload is present with a non-zero version, null when the
payload is absent OR its version is 0 (JS falsy coalescing). -/
theorem c2_processed_item_formulas (authoringResult : ItemQueryResult AuthoringItemResponse)
    (liveResult : ItemQueryResult LiveItemResponse) (itemIds : List String)
    (cur : Option String) (i : Nat) (h : i < itemIds.length) :
    ∃ r, (processItemData authoringResult liveResult itemIds cur)[i]? = some r ∧
      r.latestVersion =
        (((validateResponse authoringResult).data.bind
            (List.lookup (itemAlias i))).map (fun a => a.version)).getD 0 ∧
      r.publishedVersion =
        (match (validateResponse liveResult).data.bind (List.lookup (itemAlias i)) with
         | some l => if l.version = 0 then none else some l.version
         | none => none) ∧
      (r.isPublished = true ↔ r.publishedVersion ≠ none) ∧
      (r.isOutdated = true ↔
        r.isPublished = true ∧ r.publishedVersion.getD 0 < r.latestVersion) ∧
      r.versionDifference =
        (if r.isPublished = true then
          (r.latestVersion : Int) - (r.publishedVersion.getD 0 : Int)
         else (r.latestVersion : Int)) := by
  have hget := processItemsFrom_getElem (validateResponse authoringResult).data
    (validateResponse liveResult).data cur itemIds 0 i h
  rw [Nat.zero_add] at hget
  refine ⟨_, hget, ?_, ?_, ?_, ?_, ?_⟩
  · show jsOrNat (((validateResponse authoringResult).data.bind
        (List.lookup (itemAlias i))).map (fun a => a.version)) 0 = _
    cases ((validateResponse authoringResult).data.bind
        (List.lookup (itemAlias i))) with
    | none => rfl
    | some a => simp [jsOrNat_some_zero]
  · rfl
  · show (Option.isSome _ = true) ↔ _
    cases hlv : (validateResponse liveResult).data.bind
        (List.lookup (itemAlias i)) with
    | none => simp [mkProcessedItem, hlv]
    | some l => by_cases hv : l.version = 0 <;> simp [mkProcessedItem, hlv, hv]
  · show (_ && decide _) = true ↔ _
    simp [Bool.and_eq_true, decide_eq_true_iff, mkProcessedItem]
  · rfl

/-- Witness for C2 at concrete scenario 4 (authoring `item0` version 8, live
`item0` version 5): the formula theorem applies, and the record comes out
outdated with versionDifference 3. -/
theorem c2_processed_item_formulas_witness :
    (∃ r, (processItemData ⟨some ⟨some [("item0", ⟨"I", "N", "/p", 8, none, none⟩)], none⟩, none⟩
        ⟨some ⟨some [("item0", ⟨"I", "N", 5, none⟩)], none⟩, none⟩ ["A"] none)[0]? = some r ∧
      r.latestVersion =
        (((validateResponse (⟨some ⟨some [("item0", ⟨"I", "N", "/p", 8, none, none⟩)], none⟩,
            none⟩ : ItemQueryResult AuthoringItemResponse)).data.bind
              (List.lookup (itemAlias 0))).map (fun a => a.version)).getD 0 ∧
      r.publishedVersion =
        (match (validateResponse (⟨some ⟨some [("item0", ⟨"I", "N", 5, none⟩)], none⟩, none⟩ :
            ItemQueryResult LiveItemResponse)).data.bind (List.lookup (itemAlias 0)) with
         | some l => if l.version = 0 then none else some l.version
         | none => none) ∧
      (r.isPublished = true ↔ r.publishedVersion ≠ none) ∧
      (r.isOutdated = true ↔
        r.isPublished = true ∧ r.publishedVersion.getD 0 < r.latestVersion) ∧
      r.versionDifference =
        (if r.isPublished = true then
          (r.latestVersion : Int) - (r.publishedVersion.getD 0 : Int)
         else (r.latestVersion : Int))) ∧
    (processItemData ⟨some ⟨some [("item0", ⟨"I", "N", "/p", 8, none, none⟩)], none⟩, none⟩
        ⟨some ⟨some [("item0", ⟨"I", "N", 5, none⟩)], none⟩, none⟩ ["A"] none).map
      (fun r => (r.isOutdated, r.versionDifference)) = [(true, 3)] :=
  ⟨c2_processed_item_formulas _ _ ["A"] none 0 (by decide), by decide⟩

theorem jsOrStr_some (s : String) (b : String) (h : s ≠ "") :
    jsOrStr (some s) b = s := by
  simp [jsOrStr, h]

/-- C8 counterexample: live errored, authoring payload present for the single
ordinal but with an empty `name`; the produced record's name is the fallback
`"Unknown Item"`, so the authoring name is not carried intact. -/
theorem c8_counterexample_empty_name :
    (processItemData ⟨some ⟨some [("item0", ⟨"I", "", "/p", 3, none, none⟩)], none⟩, none⟩
        ⟨none, some "network failure"⟩ ["A"] none).map (fun r => r.name)
      = ["Unknown Item"] ∧ ("Unknown Item" : String) ≠ "" := by decide

/-- C8 (amended): when the live result is an error envelope and the
authoring envelope validates with a payload at every ordinal,
`processItemData` still yields one record per identifier; every record has
`publishedVersion` null and `isPublished` false, carries the authoring
`latestVersion` and `path` intact, and carries the authoring `name` intact
whenever that name is non-empty (an empty name falls back to
`"Unknown Item"`). -/
theorem c8_live_failure_degradation (authoringResult : ItemQueryResult AuthoringItemResponse)
    (liveResult : ItemQueryResult LiveItemResponse) (itemIds : List String)
    (cur : Option String) (e : String)
    (d : List (String × AuthoringItemResponse)) (p : Nat → AuthoringItemResponse)
    (he : liveResult.error = some e)
    (hd : (validateResponse authoringResult).data = some d)
    (hp : ∀ i, i < itemIds.length → d.lookup (itemAlias i) = some (p i)) :
    (processItemData authoringResult liveResult itemIds cur).length = itemIds.length ∧
    ∀ i, ∀ hi : i < itemIds.length,
      ∃ r, (processItemData authoringResult liveResult itemIds cur)[i]? = some r ∧
        r.publishedVersion = none ∧ r.isPublished = false ∧
        r.latestVersion = (p i).version ∧ r.path = (p i).path ∧
        ((p i).name ≠ "" → r.name = (p i).name) := by
  have hlive : (validateResponse liveResult).data = none := by
    simp [validateResponse, he]
  refine ⟨processItemsFrom_length _ _ _ 0 itemIds, ?_⟩
  intro i hi
  have hget := processItemsFrom_getElem (validateResponse authoringResult).data
    (validateResponse liveResult).data cur itemIds 0 i hi
  rw [Nat.zero_add] at hget
  refine ⟨_, hget, ?_, ?_, ?_, ?_, ?_⟩
  · show (match (validateResponse liveResult).data.bind
        (List.lookup (itemAlias i)) with
      | some l => if l.version = 0 then none else some l.version
      | none => none) = none
    rw [hlive]
    rfl
  · show Option.isSome (match (validateResponse liveResult).data.bind
        (List.lookup (itemAlias i)) with
      | some l => if l.version = 0 then none else some l.version
      | none => (none : Option Nat)) = false
    rw [hlive]
    rfl
  · show jsOrNat (((validateResponse authoringResult).data.bind
        (List.lookup (itemAlias i))).map (fun a => a.version)) 0 = (p i).version
    rw [hd]
    show jsOrNat ((d.lookup (itemAlias i)).map (fun a => a.version)) 0 = (p i).version
    rw [hp i hi]
    exact jsOrNat_some_zero _
  · show jsOrStr (((validateResponse authoringResult).data.bind
        (List.lookup (itemAlias i))).map (fun a => a.path)) "" = (p i).path
    rw [hd]
    show jsOrStr ((d.lookup (itemAlias i)).map (fun a => a.path)) "" = (p i).path
    rw [hp i hi]
    by_cases hpath : (p i).path = "" <;> simp [jsOrStr, hpath]
  · intro hname
    show jsOrStr (((validateResponse authoringResult).data.bind
        (List.lookup (itemAlias i))).map (fun a => a.name)) _ = (p i).name
    rw [hd]
    show jsOrStr ((d.lookup (itemAlias i)).map (fun a => a.name)) _ = (p i).name
    rw [hp i hi]
    exact jsOrStr_some _ _ hname

/-- Witness for C8 at a concrete input: one identifier, authoring success
with a named payload, live error envelope. -/
theorem c8_live_failure_degradation_witness :
    (processItemData ⟨some ⟨some [("item0", ⟨"I", "Home", "/content/Home", 4, none, none⟩)], none⟩, none⟩
        ⟨none, some "boom"⟩ ["A"] none).length = (["A"] : List String).length ∧
    ∀ i, ∀ hi : i < (["A"] : List String).length,
      ∃ r, (processItemData ⟨some ⟨some [("item0", ⟨"I", "Home", "/content/Home", 4, none, none⟩)], none⟩, none⟩
          ⟨none, some "boom"⟩ ["A"] none)[i]? = some r ∧
        r.publishedVersion = none ∧ r.isPublished = false ∧
        r.latestVersion = ((fun _ => (⟨"I", "Home", "/content/Home", 4, none, none⟩ :
          AuthoringItemResponse)) i).version ∧
        r.path = ((fun _ => (⟨"I", "Home", "/content/Home", 4, none, none⟩ :
          AuthoringItemResponse)) i).path ∧
        (((fun _ => (⟨"I", "Home", "/content/Home", 4, none, none⟩ :
            AuthoringItemResponse)) i).name ≠ "" →
          r.name = ((fun _ => (⟨"I", "Home", "/content/Home", 4, none, none⟩ :
            AuthoringItemResponse)) i).name) :=
  c8_live_failure_degradation _ _ ["A"] none "boom" _ _
    rfl rfl (by
      intro i hi
      have h0 : i = 0 := Nat.lt_one_iff.mp (by simpa using hi)
      subst h0
      rfl)

theorem filter_partition_length {α : Type} (p : α → Bool) (l : List α) :
    (l.filter p).length + (l.filter (fun a => !p a)).length = l.length := by
  induction l with
  | nil => rfl
  | cons x xs ih =>
    by_cases h : p x = true <;> simp [List.filter_cons, h] <;> omega

theorem filter_length_mono {α : Type} (p q : α → Bool) (l : List α)
    (h : ∀ a ∈ l, p a = true → q a = true) :
    (l.filter p).length ≤ (l.filter q).length := by
  induction l with
  | nil => exact Nat.le_refl 0
  | cons x xs ih =>
    have htail : (xs.filter p).length ≤ (xs.filter q).length :=
      ih (fun a ha => h a (List.mem_cons_of_mem x ha))
    by_cases hp : p x = true
    · have hq : q x = true := h x (List.mem_cons_self x xs) hp
      simp [List.filter_cons, hp, hq]
      omega
    · by_cases hq : q x = true <;> simp [List.filter_cons, hp, hq] <;> omega

/-- C10: Summary partition identity: for every list of ProcessedItem records,
`generateSummary` reports `totalItems` equal to the list's length and
`publishedItems + unpublishedItems = totalItems`; and when every record
satisfies isOutdated → isPublished, `outdatedItems ≤ publishedItems`. -/
theorem c10_summary_partition (items : List ProcessedItemInfo) :
    (generateSummary items).totalItems = items.length ∧
    (generateSummary items).publishedItems + (generateSummary items).unpublishedItems =
      (generateSummary items).totalItems ∧
    ((∀ r ∈ items, r.isOutdated = true → r.isPublished = true) →
      (generateSummary items).outdatedItems ≤ (generateSummary items).publishedItems) := by
  refine ⟨rfl, ?_, ?_⟩
  · exact filter_partition_length (fun item => item.isPublished) items
  · intro h
    exact filter_length_mono (fun item => item.isOutdated)
      (fun item => item.isPublished) items h

/-- A published and outdated demo record. -/
def demoOutdated : ProcessedItemInfo :=
  { id := "A", name := "N", path := "/a", latestVersion := 8,
    publishedVersion := some 5, isPublished := true, isOutdated := true,
    versionDifference := 3, itemType := .current, template := none,
    language := "en" }

/-- An unpublished demo record. -/
def demoUnpublished : ProcessedItemInfo :=
  { id := "B", name := "M", path := "/b", latestVersion := 4,
    publishedVersion := none, isPublished := false, isOutdated := false,
    versionDifference := 4, itemType := .reference, template := none,
    language := "en" }

/-- Witness for C10 on a concrete two-record list (one published & outdated,
one unpublished). -/
theorem c10_summary_partition_witness :
    (generateSummary [demoOutdated, demoUnpublished]).totalItems = 2 ∧
    (∀ r ∈ [demoOutdated, demoUnpublished],
      r.isOutdated = true → r.isPublished = true) ∧
    (generateSummary [demoOutdated, demoUnpublished]).outdatedItems ≤
      (generateSummary [demoOutdated, demoUnpublished]).publishedItems :=
  ⟨by decide, by decide, (c10_summary_partition [demoOutdated, demoUnpublished]).2.2 (by decide)⟩

/-- C3 counterexample: with a client present, a non-empty identifier list and
an absent context token, `getItemsFromAuthoring` rejects (the `throw` sits
outside the `try`), regardless of the transport — the exception propagates
to the caller instead of being converted to an error envelope. -/
theorem c3_counterexample_authoring_throws :
    getItemsFromAuthoring true ["5ED521788F0649BE9D4CF191E650189E"] none
        (Except.ok emptyEnvelope) =
      Except.error "sitecoreContextId is required for authoring GraphQL queries" := by
  rfl

/-- C3 (amended): `getItemsFromLive` never lets an exception propagate: it
resolves for every input and every transport outcome, and a transport
exception becomes an `{error}` envelope.  `getItemsFromAuthoring` does the
same PROVIDED the context token is present and non-empty (or its early guard
fires); with a truthy token a transport exception likewise becomes an
`{error}` envelope. -/
theorem c3_exception_containment (clientPresent : Bool) (itemIds : List String)
    (sitecoreContextId : Option String)
    (tA : Except String (ItemQueryResult AuthoringItemResponse))
    (tL : Except String (ResponseData LiveItemResponse)) :
    (∃ r, getItemsFromLive clientPresent itemIds sitecoreContextId tL = Except.ok r) ∧
    (∀ e, tL = Except.error e → itemIds ≠ [] →
      getItemsFromLive clientPresent itemIds sitecoreContextId tL =
        Except.ok ⟨none, some e⟩) ∧
    (truthyToken sitecoreContextId = true →
      (∃ r, getItemsFromAuthoring clientPresent itemIds sitecoreContextId tA =
        Except.ok r) ∧
      (∀ e, tA = Except.error e → clientPresent = true → itemIds ≠ [] →
        getItemsFromAuthoring clientPresent itemIds sitecoreContextId tA =
          Except.ok ⟨none, some e⟩)) := by
  refine ⟨?_, ?_, ?_⟩
  · unfold getItemsFromLive
    by_cases hlen : (itemIds.length == 0) = true
    · exact ⟨emptyEnvelope, by simp [hlen]⟩
    · cases tL with
      | ok r => exact ⟨⟨some r, none⟩, by simp [hlen]⟩
      | error e => exact ⟨⟨none, some e⟩, by simp [hlen]⟩
  · intro e hte hne
    subst hte
    unfold getItemsFromLive
    have hlen : (itemIds.length == 0) = false := by
      cases itemIds with
      | nil => exact absurd rfl hne
      | cons x xs => rfl
    simp [hlen]
  · intro htok
    have htok' : (!truthyToken sitecoreContextId) = false := by simp [htok]
    constructor
    · unfold getItemsFromAuthoring
      by_cases hguard : (!clientPresent || itemIds.length == 0) = true
      · exact ⟨emptyEnvelope, by simp [hguard]⟩
      · cases tA with
        | ok r => exact ⟨r, by simp [hguard, htok']⟩
        | error e => exact ⟨⟨none, some e⟩, by simp [hguard, htok']⟩
    · intro e hte hcl hne
      subst hte hcl
      unfold getItemsFromAuthoring
      have hlen : (itemIds.length == 0) = false := by
        cases itemIds with
        | nil => exact absurd rfl hne
        | cons x xs => rfl
      simp [hlen, htok']

/-- Witness for C3 at concrete inputs: a truthy token, one identifier, both
transports rejecting; both functions resolve. -/
theorem c3_exception_containment_witness :
    (∃ r, getItemsFromLive true ["A"] (some "ctx")
        (Except.error "boom") = Except.ok r) ∧
    (∀ e, (Except.error "boom" : Except String (ResponseData LiveItemResponse)) =
        Except.error e → (["A"] : List String) ≠ [] →
      getItemsFromLive true ["A"] (some "ctx") (Except.error "boom") =
        Except.ok ⟨none, some e⟩) ∧
    (truthyToken (some "ctx") = true →
      (∃ r, getItemsFromAuthoring true ["A"] (some "ctx")
          (Except.error "boom") = Except.ok r) ∧
      (∀ e, (Except.error "boom" : Except String (ItemQueryResult AuthoringItemResponse)) =
          Except.error e → true = true → (["A"] : List String) ≠ [] →
        getItemsFromAuthoring true ["A"] (some "ctx") (Except.error "boom") =
          Except.ok ⟨none, some e⟩)) :=
  c3_exception_containment true ["A"] (some "ctx")
    (Except.error "boom") (Except.error "boom")

theorem foldl_jsRecordSet_fresh (f : Nat × String → Option String) :
    ∀ (ps : List (Nat × String)) (acc : List (String × Option String)),
      (∀ pr ∈ ps, ∀ q ∈ acc, q.1 ≠ pr.2) → (ps.map Prod.snd).Nodup →
      ps.foldl (fun a pair => jsRecordSet a pair.2 (f pair)) acc =
        acc ++ ps.map (fun pair => (pair.2, f pair)) := by
  intro ps
  induction ps with
  | nil =>
    intro acc _ _
    simp
  | cons x xs ih =>
    intro acc hfresh hnodup
    simp only [List.foldl_cons]
    have hnokey : (acc.any (fun p => p.1 == x.2)) = false := by
      rw [List.any_eq_false]
      intro q hq
      simpa using hfresh x (List.mem_cons_self x xs) q hq
    have hset : jsRecordSet acc x.2 (f x) = acc ++ [(x.2, f x)] := by
      unfold jsRecordSet
      rw [if_neg (by simp [hnokey])]
    rw [hset]
    have hx2 : x.2 ∉ xs.map Prod.snd := by
      have hn := hnodup
      simp only [List.map_cons, List.nodup_cons] at hn
      exact hn.1
    have htail : (xs.map Prod.snd).Nodup := by
      have hn := hnodup
      simp only [List.map_cons, List.nodup_cons] at hn
      exact hn.2
    rw [ih (acc ++ [(x.2, f x)]) ?_ htail]
    · simp
    · intro pr hpr q hq
      rcases List.mem_append.mp hq with hq | hq
      · exact hfresh pr (List.mem_cons_of_mem x hpr) q hq
      · have hqeq : q = (x.2, f x) := by simpa using hq
        subst hqeq
        intro hcontra
        have hc : x.2 = pr.2 := hcontra
        rw [hc] at hx2
        exact hx2 (List.mem_map_of_mem Prod.snd hpr)

/-- C7 (amended): when the resolution transport resolves and the response
carries nested data, `resolveLocalDatasourcePaths` maps each (distinct)
symbolic path, in order, to its ordinal slot's value: the slot item's
identifier UPPERCASED WITH BRACES STRIPPED BUT HYPHENS KEPT when the slot
holds an item with a truthy `itemId`, and null otherwise. -/
theorem c7_resolver_mapping (localPaths : List String) (basePath ctxId : String)
    (response : ItemQueryResult (Option ResolvedPathItem))
    (d : List (String × Option ResolvedPathItem))
    (hnodup : localPaths.Nodup)
    (hdata : response.data.bind (fun rd => rd.data) = some d) :
    resolveLocalDatasourcePaths true localPaths basePath ctxId (Except.ok response) =
      localPaths.enum.map (fun pair => (pair.2, resolveSlotValue d pair.1)) := by
  cases localPaths with
  | nil => rfl
  | cons x xs =>
    unfold resolveLocalDatasourcePaths
    have hguard : (!true || ((x :: xs).length == 0)) = false := rfl
    rw [hguard]
    simp only [Bool.false_eq_true, if_false, hdata]
    exact foldl_jsRecordSet_fresh (fun pair => resolveSlotValue d pair.1)
      (x :: xs).enum [] (by intro pr _ q hq; simp at hq)
      (by rw [List.enum_map_snd]; exact hnodup)

/-- C7 counterexample: resolving an item whose wire identifier is hyphenated
yields the hyphenated uppercase form, NOT the 32-character hyphen-free
canonical form the claim states. -/
theorem c7_counterexample_hyphens_kept :
    resolveLocalDatasourcePaths true ["Text 1"] "/base" "ctx"
        (Except.ok ⟨some ⟨some [("path0",
          some ⟨some "aaaaaaaa-bbbb-cccc-dddd-eeeeeeeeeeee", some "n"⟩)], none⟩, none⟩)
      = [("Text 1", some "AAAAAAAA-BBBB-CCCC-DDDD-EEEEEEEEEEEE")] ∧
    ("AAAAAAAA-BBBB-CCCC-DDDD-EEEEEEEEEEEE" : String) ≠
      formatGuidWithoutHyphens "aaaaaaaa-bbbb-cccc-dddd-eeeeeeeeeeee" := by decide

/-- Witness for C7 at a concrete resolution: two distinct paths, slot 0 an
item with a braced lowercase id, slot 1 empty. -/
theorem c7_resolver_mapping_witness :
    resolveLocalDatasourcePaths true ["Text 1", "Text 2"] "/base" "ctx"
        (Except.ok ⟨some ⟨some [("path0",
          some ⟨some "{aaaaaaaa-bbbb-cccc-dddd-eeeeeeeeeeee}", some "n"⟩),
          ("path1", none)], none⟩, none⟩)
      = [("Text 1", some "AAAAAAAA-BBBB-CCCC-DDDD-EEEEEEEEEEEE"), ("Text 2", none)] := by
  rw [c7_resolver_mapping ["Text 1", "Text 2"] "/base" "ctx"
    ⟨some ⟨some [("path0",
      some ⟨some "{aaaaaaaa-bbbb-cccc-dddd-eeeeeeeeeeee}", some "n"⟩),
      ("path1", none)], none⟩, none⟩
    [("path0", some ⟨some "{aaaaaaaa-bbbb-cccc-dddd-eeeeeeeeeeee}", some "n"⟩),
     ("path1", none)] (by decide) rfl]
  decide
